import Mathlib

/-!
# Verification of `bot_assistant.py` (contact-book assistant)

A shallow embedding of the contact-book program in Lean 4, together with
theorems settling the specification's claims against it.

Modelling conventions:
* Python exceptions become `Except PyErr`; the error kinds the program
  distinguishes (`ValueError`, `KeyError`, `IndexError`, and the generic
  `except Exception` branch) are the constructors of `PyErr`.
* `Field` objects (`Name`, `Phone`, `Birthday`) carry only their `.value`
  string, so they are modelled as the underlying `String`.
* The Python `dict` held by `AddressBook` (insertion-ordered, unique keys)
  is modelled as an association list `List (String × Record)`; assignment
  replaces in place, `del` removes, `.get` looks up the first match.
  `dict.get` called with an unhashable key (a `list`) raises `TypeError`,
  modelled by the `PyKey` argument of `AddressBook.find`.
* Python `str.isdigit` is modelled on ASCII digits (the digits the program
  manipulates); it is false on the empty string.
* `datetime.date` values are compared and shifted by whole days; dates are
  encoded as civil day numbers (`daysFromCivil`), which respects the
  calendar order and makes `timedelta(days=7)` the addition of `7`.
-/

set_option linter.unusedVariables false

/-- The exception kinds distinguished by the program's `input_error`
decorator: `ValueError`, `KeyError`, `IndexError`, and every other
exception (e.g. `TypeError`), each carrying `str(e)`. -/
inductive PyErr where
  | valueError (msg : String)
  | keyError (msg : String)
  | indexError (msg : String)
  | otherError (msg : String)
  deriving DecidableEq, Repr

/-- A value used as a Python `dict` key: either a (hashable) string or an
(unhashable) list of strings, as passed by the `change`/`phone` branches
of `main`. -/
inductive PyKey where
  | str (s : String)
  | strList (l : List String)
  deriving DecidableEq, Repr

/-- Python `s.isdigit()` restricted to ASCII digits: true iff `s` is
nonempty and every character is a digit (false on `""`). -/
def pyStrIsDigit (s : String) : Bool :=
  !s.data.isEmpty && s.data.all Char.isDigit

/-- The raise condition tested for each element `val` in
`Phone.__init__`'s loop: `not len(val) != 10 or not val.isdigit()`,
i.e. `len(val) == 10 or not val.isdigit()`. -/
def phoneCheckElem (val : String) : Bool :=
  !(val.length != 10) || !(pyStrIsDigit val)

/-- `Phone.__init__` applied to a sequence of candidate strings (the
spec's `Phone([p])` usage): iterates the argument and raises
`ValueError("Invalid phone number format")` when any element satisfies
`phoneCheckElem`; on success the object stores the argument as `.value`. -/
def phoneInitSeq (value : List String) : Except PyErr (List String) :=
  if value.any phoneCheckElem then
    .error (.valueError "Invalid phone number format")
  else
    .ok value

/-- `Phone.__init__` applied to a single string (the `Record.add_phone`
usage): iterating a Python string yields its one-character substrings,
each checked with `phoneCheckElem`. -/
def phoneInitStr (s : String) : Except PyErr String :=
  if (s.data.map (fun c => String.mk [c])).any phoneCheckElem then
    .error (.valueError "Invalid phone number format")
  else
    .ok s

/-- Python `value.split('.')`, on the character list of the string:
splits on every `'.'`, keeping empty pieces (so `"" ↦ [""]`). -/
def splitDots : List Char → List (List Char)
  | [] => [[]]
  | c :: rest =>
    match splitDots rest with
    | [] => []
    | g :: gs => if c = '.' then [] :: g :: gs else (c :: g) :: gs

/-- Python `int(s)` restricted to unsigned decimal digit strings (the
forms the program's date fields use): `none` when `s` is empty or has a
non-digit character, otherwise the denoted number. -/
def pyIntDigits (cs : List Char) : Option Nat :=
  if cs ≠ [] ∧ cs.all Char.isDigit then
    some (cs.foldl (fun a c => a * 10 + (c.toNat - 48)) 0)
  else
    none

/-- Gregorian leap-year test, as in Python's `datetime`. -/
def isLeap (y : Nat) : Bool :=
  y % 4 = 0 && (y % 100 ≠ 0 || y % 400 = 0)

/-- Number of days in month `m` of year `y`. -/
def daysInMonth (y m : Nat) : Nat :=
  if m = 2 then (if isLeap y then 29 else 28)
  else if m = 4 ∨ m = 6 ∨ m = 9 ∨ m = 11 then 30
  else 31

/-- The validity check performed by constructing `datetime(year, month,
day)`: year in `1..9999`, month in `1..12`, day in `1..days_in_month`. -/
def pyDateOk (y m d : Nat) : Bool :=
  1 ≤ y && y ≤ 9999 && 1 ≤ m && m ≤ 12 && 1 ≤ d && d ≤ daysInMonth y m

/-- Parse a `DD.MM.YYYY` string into `(day, month, year)`: split on
`'.'` into exactly three components (`day, month, year = value.split('.')`),
convert each with `int`, and require `datetime(year, month, day)` to be a
valid date. Both `Birthday.__init__` and
`datetime.strptime(value, "%d.%m.%Y")` perform this parse. -/
def parseDMY (s : String) : Option (Nat × Nat × Nat) :=
  match splitDots s.data with
  | [ds, ms, ys] =>
    match pyIntDigits ds, pyIntDigits ms, pyIntDigits ys with
    | some d, some m, some y => if pyDateOk y m d then some (d, m, y) else none
    | _, _, _ => none
  | _ => none

/-- `Birthday.__init__`: validates the `DD.MM.YYYY` string and stores it
as `.value`; any failure inside the `try` is converted to
`ValueError("Invalid date format. Use DD.MM.YYYY")`. -/
def birthdayInit (s : String) : Except PyErr String :=
  match parseDMY s with
  | some _ => .ok s
  | none => .error (.valueError "Invalid date format. Use DD.MM.YYYY")

/-- Civil day number of the date `(y, m, d)` (days since 0000-03-01,
computed with the standard era/year-of-era decomposition). Strictly
monotone in calendar order for the years `datetime` admits, so Python's
date comparison becomes `≤` on day numbers and `timedelta(days=7)`
becomes `+ 7`. -/
def daysFromCivil (y m d : Nat) : Nat :=
  let y' := if m ≤ 2 then y - 1 else y
  let era := y' / 400
  let yoe := y' - era * 400
  let mp := if 2 < m then m - 3 else m + 9
  let doy := (153 * mp + 2) / 5 + d - 1
  let doe := yoe * 365 + yoe / 4 - yoe / 100 + doy
  era * 146097 + doe

/-- One contact: the validated name string, the list of `.value` strings
of its `Phone` objects, and the optional `.value` string of its
`Birthday`. -/
structure Record where
  name : String
  phones : List String
  birthday : Option String
  deriving DecidableEq, Repr

/-- `Name.__init__`: rejects a falsy (empty) string with
`ValueError("Name cannot be empty")`. -/
def nameInit (v : String) : Except PyErr String :=
  if v = "" then .error (.valueError "Name cannot be empty") else .ok v

/-- `Record.__init__(name, phone)`: validates the name and initialises
`phones` to the empty list and `birthday` to `None`. The `phone`
parameter is accepted but never used by the source. -/
def recordInit (name phone : String) : Except PyErr Record :=
  match nameInit name with
  | .ok n => .ok { name := n, phones := [], birthday := none }
  | .error e => .error e

/-- `Record.add_phone`: appends `Phone(phone)`; the exception from a
failed validation propagates and the list is unchanged. -/
def Record.add_phone (r : Record) (phone : String) : Except PyErr Record :=
  match phoneInitStr phone with
  | .ok v => .ok { r with phones := r.phones ++ [v] }
  | .error e => .error e

/-- The loop of `Record.edit_phone`: replace the value of the first
element equal to `old` with `new` and stop; leave the list unchanged
when `old` does not occur. -/
def editPhones : List String → String → String → List String
  | [], _, _ => []
  | p :: ps, old, new => if p = old then new :: ps else p :: editPhones ps old new

/-- `Record.edit_phone(old, new)`: assigns `new` to the `.value` of the
first phone equal to `old` (no validation of `new`); silent no-op when
`old` is absent. -/
def Record.edit_phone (r : Record) (old new : String) : Record :=
  { r with phones := editPhones r.phones old new }

/-- `Record.add_birthday`: sets `Birthday(birthday)` when unset,
otherwise raises `ValueError("Birthday already exists")` (before any
validation of the argument). -/
def Record.add_birthday (r : Record) (birthday : String) : Except PyErr Record :=
  match r.birthday with
  | none =>
    match birthdayInit birthday with
    | .ok v => .ok { r with birthday := some v }
    | .error e => .error e
  | some _ => .error (.valueError "Birthday already exists")

/-- Python `'; '.join` of the phone values. -/
def joinPhones : List String → String
  | [] => ""
  | [p] => p
  | p :: ps => p ++ "; " ++ joinPhones ps

/-- `Record.__str__`:
`f"Contact name: {name}, phones: {'; '.join(...)}"`. -/
def recordStr (r : Record) : String :=
  "Contact name: " ++ r.name ++ ", phones: " ++ joinPhones r.phones

/-- The contact book: the insertion-ordered `dict` from name to
`Record`, as an association list. -/
structure AddressBook where
  data : List (String × Record)
  deriving DecidableEq, Repr

/-- Python `dict` assignment `data[k] = v`: replace the value at an
existing key in place, otherwise append the new pair at the end. -/
def dictInsert : List (String × Record) → String → Record → List (String × Record)
  | [], k, v => [(k, v)]
  | (k', v') :: rest, k, v =>
    if k' = k then (k, v) :: rest else (k', v') :: dictInsert rest k v

/-- Python `dict.get` with a string key: the value at the first (unique)
matching key, if any. -/
def listLookup : List (String × Record) → String → Option Record
  | [], _ => none
  | (k, v) :: rest, n => if k = n then some v else listLookup rest n

/-- `AddressBook.add_record(name, phone)`:
`self.data[name] = Record(name, phone)`; the `Record` constructor runs
first, so a validation failure leaves the book unchanged. -/
def AddressBook.add_record (b : AddressBook) (name phone : String) :
    Except PyErr AddressBook :=
  match recordInit name phone with
  | .ok r => .ok ⟨dictInsert b.data name r⟩
  | .error e => .error e

/-- `AddressBook.find(name)`, i.e. `self.data.get(name)`: a string key
looks up the dict; an unhashable key (a list, as passed by the
`change`/`phone` branches of `main`) raises
`TypeError("unhashable type: 'list'")`. -/
def AddressBook.find (b : AddressBook) (k : PyKey) : Except PyErr (Option Record) :=
  match k with
  | .str s => .ok (listLookup b.data s)
  | .strList _ => .error (.otherError "unhashable type: 'list'")

/-- `AddressBook.delete(name)`: removes the entry at `name` when
present, silent no-op otherwise. -/
def AddressBook.delete (b : AddressBook) (name : String) : AddressBook :=
  ⟨b.data.filter (fun p => p.1 != name)⟩

/-- One element of the list `get_upcoming_birthdays` returns: the
`{"name": ..., "birthday": ...}` dictionary. -/
structure UpcomingEntry where
  name : String
  birthday : String
  deriving DecidableEq, Repr

/-- The loop of `get_upcoming_birthdays`, over the book's entries in
iteration order, with today's date given as a civil day number: for each
record with a birthday, reparse the stored string with
`strptime(value, "%d.%m.%Y")` (a failure raises `ValueError`), and keep
the entry when the parsed date - with its stored year - satisfies
`today <= date <= today + 7 days`. -/
def upcomingAux (todayN : Nat) : List (String × Record) → Except PyErr (List UpcomingEntry)
  | [] => .ok []
  | (_, r) :: rest =>
    match r.birthday with
    | none => upcomingAux todayN rest
    | some s =>
      match parseDMY s with
      | none =>
        .error (.valueError ("time data '" ++ s ++ "' does not match format '%d.%m.%Y'"))
      | some (d, m, y) =>
        match upcomingAux todayN rest with
        | .error e => .error e
        | .ok tail =>
          if todayN ≤ daysFromCivil y m d ∧ daysFromCivil y m d ≤ todayN + 7 then
            .ok ({ name := r.name, birthday := s } :: tail)
          else
            .ok tail

/-- `AddressBook.get_upcoming_birthdays`, parametrised by today's civil
day number (the program reads it from `datetime.today()`). -/
def AddressBook.get_upcoming_birthdays (b : AddressBook) (todayN : Nat) :
    Except PyErr (List UpcomingEntry) :=
  upcomingAux todayN b.data

/-- `str(e)` prefixed by the kind tag, exactly as the `input_error`
decorator renders each caught exception. -/
def pyErrStr : PyErr → String
  | .valueError m => "ValueError: " ++ m
  | .keyError m => "KeyError: " ++ m
  | .indexError m => "IndexError: " ++ m
  | .otherError m => "An error occurred: " ++ m

/-- The rendering of a validation (`ValueError`), lookup (`KeyError`) or
index (`IndexError`) failure as `"<ErrorKind>: <message>"`; `none` for
the residual `except Exception` branch. -/
def vkiStr : PyErr → Option String
  | .valueError m => some ("ValueError: " ++ m)
  | .keyError m => some ("KeyError: " ++ m)
  | .indexError m => some ("IndexError: " ++ m)
  | .otherError _ => none

/-- The `input_error` decorator: return the wrapped function's value,
or, when it raises, return the rendered error string in its place
(injected into the handler's result type by `inj`). -/
def input_error {α : Type} (inj : String → α) (x : Except PyErr α) : Except PyErr α :=
  match x with
  | .ok v => .ok v
  | .error e => .ok (inj (pyErrStr e))

/-- `str(e)` of the `ValueError` raised by unpacking `args` of length
`n` into two variables. -/
def unpackTwoMsg (n : Nat) : String :=
  if n < 2 then "not enough values to unpack (expected 2, got " ++ toString n ++ ")"
  else "too many values to unpack (expected 2)"

/-- Body of the `add_birthday` handler: `name, birthday = args` (a
`ValueError` if `args` does not have exactly two elements), look the
name up, and either set the birthday on the found record (the record
object inside the book is mutated) or report `"Contact not found."`. -/
def addBirthdayBody (args : List String) (book : AddressBook) :
    Except PyErr (String × AddressBook) :=
  match args with
  | [name, birthday] =>
    match AddressBook.find book (.str name) with
    | .error e => .error e
    | .ok (some r) =>
      match r.add_birthday birthday with
      | .ok r' => .ok ("Birthday added.", ⟨dictInsert book.data name r'⟩)
      | .error e => .error e
    | .ok none => .ok ("Contact not found.", book)
  | _ => .error (.valueError (unpackTwoMsg args.length))

/-- The decorated `add_birthday` handler; on an exception the wrapper's
string is returned and the book is unchanged. -/
def addBirthdayHandler (args : List String) (book : AddressBook) :
    Except PyErr (String × AddressBook) :=
  input_error (fun s => (s, book)) (addBirthdayBody args book)

/-- Body of the `show_birthday` handler: `name = args` binds the whole
argument list, so `book.find(name)` is called with an unhashable list
key; were a record found, it would print its birthday value or
`"Birthday not set."`. -/
def showBirthdayBody (args : List String) (book : AddressBook) :
    Except PyErr String :=
  match AddressBook.find book (.strList args) with
  | .error e => .error e
  | .ok (some r) =>
    match r.birthday with
    | some b => .ok b
    | none => .ok "Birthday not set."
  | .ok none => .ok "Birthday not set."

/-- The decorated `show_birthday` handler. -/
def showBirthdayHandler (args : List String) (book : AddressBook) :
    Except PyErr String :=
  input_error id (showBirthdayBody args book)

/-- Body of the `birthdays` handler: the lines it prints - one per
upcoming entry, or the single line `"No upcoming birthdays."`. -/
def birthdaysBody (book : AddressBook) (todayN : Nat) :
    Except PyErr (List String) :=
  match AddressBook.get_upcoming_birthdays book todayN with
  | .error e => .error e
  | .ok ub =>
    if ub.isEmpty then .ok ["No upcoming birthdays."]
    else .ok (ub.map fun e => "Name: " ++ e.name ++ ", Birthday: " ++ e.birthday)

/-- The decorated `birthdays` handler; on an exception the wrapper
returns the rendered string (one line) in place of the printed output. -/
def birthdaysHandler (args : List String) (book : AddressBook) (todayN : Nat) :
    Except PyErr (List String) :=
  input_error (fun s => [s]) (birthdaysBody book todayN)

/-- The `change` branch of `main`: after the argument-count guard it
calls `book.find(args)` with the whole argument list (not `args[0]`);
in the (unreachable) found case, `record.edit_phone(args, args)`
compares each phone string with the list `args`, which is never equal
in Python, so the edit would be a no-op. -/
def changeBranch (args : List String) (book : AddressBook) :
    Except PyErr (AddressBook × String) :=
  if args.length ≠ 3 then
    .ok (book, "Invalid input format. Use 'change name old_phone new_phone'.")
  else
    match AddressBook.find book (.strList args) with
    | .error e => .error e
    | .ok (some _) => .ok (book, "Phone changed.")
    | .ok none => .ok (book, "Contact not found.")

/-- The `phone` branch of `main`: after the argument-count guard it
calls `book.find(args)` with the whole argument list (not `args[0]`),
then prints the record or `"Contact not found."`. -/
def phoneBranch (args : List String) (book : AddressBook) :
    Except PyErr String :=
  if args.length ≠ 1 then
    .ok "Invalid input format. Use 'phone name'."
  else
    match AddressBook.find book (.strList args) with
    | .error e => .error e
    | .ok (some r) => .ok (recordStr r)
    | .ok none => .ok "Contact not found."

/-- The `AddressBook` operations quantified over by the book invariant:
`add_record`, `delete` and `find`. -/
inductive BookOp where
  | add (name phone : String)
  | del (name : String)
  | find (name : String)
  deriving DecidableEq, Repr

/-- Apply one operation to the book: a failed `add_record` (empty name)
raises before the dict assignment, leaving the book unchanged; `find`
does not mutate. -/
def applyOp (b : AddressBook) : BookOp → AddressBook
  | .add n p =>
    match b.add_record n p with
    | .ok b' => b'
    | .error _ => b
  | .del n => b.delete n
  | .find _ => b

/-- Run a sequence of operations starting from the fresh empty book
(`AddressBook()`). -/
def runOps (ops : List BookOp) : AddressBook :=
  ops.foldl applyOp ⟨[]⟩

/-- The book's structural invariant: keys are pairwise distinct, and
each key equals the `.name` of the record stored under it. -/
def BookInv (b : AddressBook) : Prop :=
  (b.data.map Prod.fst).Nodup ∧ ∀ p ∈ b.data, p.2.name = p.1

/-- Modelled from the spec: the persistence adapter. `save_data` and
`load_data` delegate to `pickle`, which is outside this repository; its
contract (spec section 6) is any serialization of the address book that
preserves the full entity graph round-trip-exactly. It is modelled here
as a concrete token-stream serialization. A serialized token: a string
or a number. -/
inductive PickleTok where
  | str (s : String)
  | num (n : Nat)
  deriving DecidableEq, Repr

/-- Serialize one book entry: key, name, phone count, phones, then a
tagged optional birthday. -/
def encRecord (k : String) (r : Record) : List PickleTok :=
  [.str k, .str r.name, .num r.phones.length] ++ r.phones.map .str ++
    (match r.birthday with
     | none => [.num 0]
     | some b => [.num 1, .str b])

/-- Serialize the book's entries in iteration order. -/
def encEntries : List (String × Record) → List PickleTok
  | [] => []
  | (k, r) :: rest => encRecord k r ++ encEntries rest

/-- Modelled from the spec: `pickle.dump` of the address book, as the
entry count followed by the serialized entries. -/
def pickleDump (b : AddressBook) : List PickleTok :=
  .num b.data.length :: encEntries b.data

/-- Read back `n` phone strings. -/
def decPhones : Nat → List PickleTok → Option (List String × List PickleTok)
  | 0, ts => some ([], ts)
  | n + 1, .str p :: ts =>
    match decPhones n ts with
    | some (ps, rest) => some (p :: ps, rest)
    | none => none
  | _ + 1, _ => none

/-- Read back one book entry. -/
def decEntry : List PickleTok → Option ((String × Record) × List PickleTok)
  | .str k :: .str nm :: .num np :: ts =>
    match decPhones np ts with
    | some (ps, .num 0 :: rest) =>
      some ((k, { name := nm, phones := ps, birthday := none }), rest)
    | some (ps, .num 1 :: .str b :: rest) =>
      some ((k, { name := nm, phones := ps, birthday := some b }), rest)
    | _ => none
  | _ => none

/-- Read back `n` book entries. -/
def decEntries : Nat → List PickleTok → Option (List (String × Record) × List PickleTok)
  | 0, ts => some ([], ts)
  | n + 1, ts =>
    match decEntry ts with
    | some (e, rest) =>
      match decEntries n rest with
      | some (es, rest') => some (e :: es, rest')
      | none => none
    | none => none

/-- Modelled from the spec: `pickle.load`, inverse of `pickleDump`;
`none` on a malformed stream. -/
def pickleLoad (ts : List PickleTok) : Option AddressBook :=
  match ts with
  | .num n :: rest =>
    match decEntries n rest with
    | some (es, []) => some ⟨es⟩
    | _ => none
  | _ => none

/-- `save_data(book)`: write the serialized book to the save file. -/
def save_data (b : AddressBook) : List PickleTok :=
  pickleDump b

/-- `load_data()`: a missing save file (`none`) yields a fresh empty
`AddressBook()`; otherwise deserialize the file's contents. -/
def load_data (file : Option (List PickleTok)) : Option AddressBook :=
  match file with
  | none => some ⟨[]⟩
  | some ts => pickleLoad ts

/-- The record produced by `Record("Ann", "1234567890")`. -/
def recAnn : Record :=
  { name := "Ann", phones := [], birthday := none }

/-- The book produced by `AddressBook().add_record("Ann", "1234567890")`. -/
def bkAnn : AddressBook :=
  ⟨[("Ann", recAnn)]⟩

/-- A book whose one contact stores the birthday `15.10.1990`. -/
def bkOld : AddressBook :=
  ⟨[("Ann", { name := "Ann", phones := [], birthday := some "15.10.1990" })]⟩

/-- A book whose one contact stores the birthday `15.10.2026`. -/
def bkNew4 : AddressBook :=
  ⟨[("Ann", { name := "Ann", phones := [], birthday := some "15.10.2026" })]⟩

/-- A record holding the single (3-digit) phone value `123`. -/
def recC6 : Record :=
  { name := "Ann", phones := ["123"], birthday := none }

/-- A book whose one contact already has a birthday set. -/
def bkBday : AddressBook :=
  ⟨[("Ann", { name := "Ann", phones := [], birthday := some "01.01.2000" })]⟩

/-- C1: the spec requires `Phone([p])` to succeed exactly for 10-digit
strings, but the source's condition `not len(val) != 10 or not
val.isdigit()` is inverted: the valid 10-digit string `"1234567890"` is
rejected with `ValueError("Invalid phone number format")`, while the
3-digit string `"123"` is accepted; a non-digit candidate is rejected. -/
theorem c1_phone_validation_inverted :
    phoneInitSeq ["1234567890"] = .error (.valueError "Invalid phone number format") ∧
    phoneInitSeq ["123"] = .ok ["123"] ∧
    phoneInitSeq ["12345678x0"] = .error (.valueError "Invalid phone number format") :=
  ⟨rfl, rfl, rfl⟩

/-- C2: `add_record("Ann", "1234567890")` stores a `Record` under key
`"Ann"`, but `Record.__init__` discards its `phone` argument, so the
stored record's phone list is empty and its string representation is
`"Contact name: Ann, phones: "`, not
`"Contact name: Ann, phones: 1234567890"`. -/
theorem c2_record_ignores_initial_phone :
    AddressBook.add_record ⟨[]⟩ "Ann" "1234567890" = .ok bkAnn ∧
    listLookup bkAnn.data "Ann" = some recAnn ∧
    recAnn.phones = [] ∧
    recordStr recAnn = "Contact name: Ann, phones: " :=
  ⟨rfl, rfl, rfl, rfl⟩

/-- C3: the `phone`/`change` branches of `main` pass the whole argument
list to `book.find` instead of the contact name, so even when the book
holds a record under the string key `"Ann"`, dispatching `phone Ann` or
`change Ann <old> <new>` raises `TypeError("unhashable type: 'list'")`
rather than looking the record up. -/
theorem c3_dispatch_passes_args_list :
    phoneBranch ["Ann"] bkAnn = .error (.otherError "unhashable type: 'list'") ∧
    changeBranch ["Ann", "1111111111", "2222222222"] bkAnn =
      .error (.otherError "unhashable type: 'list'") ∧
    AddressBook.find bkAnn (.str "Ann") = .ok (some recAnn) :=
  ⟨rfl, rfl, rfl⟩

/-- C4 counterexample: with today = 2026-10-12, a contact whose stored
birthday is `15.10.1990` satisfies the claim's criterion (this year's
calendar date 2026-10-15 lies in `[today, today + 7]`), yet
`get_upcoming_birthdays` returns the empty list, because the source
compares the stored date with its stored year and never substitutes the
current year. -/
theorem c4_counterexample_stored_year_used :
    AddressBook.get_upcoming_birthdays bkOld (daysFromCivil 2026 10 12) = .ok [] ∧
    daysFromCivil 2026 10 12 ≤ daysFromCivil 2026 10 15 ∧
    daysFromCivil 2026 10 15 ≤ daysFromCivil 2026 10 12 + 7 :=
  ⟨rfl, by decide, by decide⟩

/-- C6 counterexample: `edit_phone("123", "abc")` on a record holding
the phone `"123"` succeeds and stores `"abc"`, even though `"abc"` is
rejected by the `Phone` validator: `edit_phone` assigns the new value
without validating it. -/
theorem c6_counterexample_no_validation :
    Record.edit_phone recC6 "123" "abc" = { recC6 with phones := ["abc"] } ∧
    phoneInitStr "abc" = .error (.valueError "Invalid phone number format") :=
  ⟨rfl, rfl⟩

/-- On a one-character string the `Phone` loop's raise condition
reduces to "the character is not a digit" (its length is 1, never 10). -/
theorem phoneCheckElem_single (c : Char) :
    phoneCheckElem (String.mk [c]) = !c.isDigit := by
  simp [phoneCheckElem, pyStrIsDigit, String.length]

/-- `Phone` applied to a single string succeeds exactly when every
character is a digit (so in particular on the empty string). -/
theorem phoneInitStr_eq (s : String) :
    phoneInitStr s =
      if s.data.all Char.isDigit then .ok s
      else .error (.valueError "Invalid phone number format") := by
  unfold phoneInitStr
  have hany : ∀ cs : List Char,
      ((cs.map fun c => String.mk [c]).any phoneCheckElem) = !cs.all Char.isDigit := by
    intro cs
    induction cs with
    | nil => rfl
    | cons c cs ih =>
      simp only [List.map_cons, List.any_cons, List.all_cons,
        phoneCheckElem_single, ih, Bool.not_and]
  rw [hany]
  cases h : s.data.all Char.isDigit <;> simp

/-- C10: `Record.add_phone(p)` succeeds for every all-digit string `p`
(of any length, including the empty string) and appends a `Phone` whose
value is exactly `p`; for a string with a non-digit character it raises
`ValueError("Invalid phone number format")` and, the exception being
raised before the append, leaves the phone list unchanged. -/
theorem c10_add_phone_digit_strings (r : Record) (p : String) :
    ((∀ c ∈ p.data, c.isDigit = true) →
      Record.add_phone r p = .ok { r with phones := r.phones ++ [p] }) ∧
    ((¬ ∀ c ∈ p.data, c.isDigit = true) →
      Record.add_phone r p = .error (.valueError "Invalid phone number format")) := by
  have h := phoneInitStr_eq p
  constructor <;> intro hc <;>
    unfold Record.add_phone <;> rw [h]
  · rw [if_pos (by simpa [List.all_eq_true] using hc)]
  · rw [if_neg (by simpa [List.all_eq_true] using hc)]

/-- C10 witness: the 3-digit string `"123"` and the empty string are
accepted and appended verbatim; `"12a"` is rejected. -/
theorem c10_witness :
    Record.add_phone recAnn "123" =
      .ok { name := "Ann", phones := ["123"], birthday := none } ∧
    Record.add_phone recAnn "" =
      .ok { name := "Ann", phones := [""], birthday := none } ∧
    Record.add_phone recAnn "12a" =
      .error (.valueError "Invalid phone number format") :=
  ⟨(c10_add_phone_digit_strings recAnn "123").1 (by decide),
   (c10_add_phone_digit_strings recAnn "").1 (by decide),
   (c10_add_phone_digit_strings recAnn "12a").2 (by decide)⟩

/-- C5: on a record with no birthday, `add_birthday` with a valid
`DD.MM.YYYY` string stores that string and changes nothing else; a
second `add_birthday` on the resulting record fails with the literal
`ValueError("Birthday already exists")` (raised before any validation
of the new argument), leaving the stored birthday as it was. -/
theorem c5_add_birthday_set_once (r : Record) (s s' : String)
    (h : r.birthday = none) (hv : (parseDMY s).isSome) :
    Record.add_birthday r s = .ok { r with birthday := some s } ∧
    Record.add_birthday { r with birthday := some s } s' =
      .error (.valueError "Birthday already exists") := by
  constructor
  · unfold Record.add_birthday birthdayInit
    rw [h]
    cases hp : parseDMY s with
    | none => rw [hp] at hv; simp at hv
    | some v => rfl
  · rfl

/-- C5 witness: setting `01.01.2000` on a fresh record succeeds and a
second call fails with the literal message. -/
theorem c5_witness :
    Record.add_birthday recAnn "01.01.2000" =
      .ok { name := "Ann", phones := [], birthday := some "01.01.2000" } ∧
    Record.add_birthday { name := "Ann", phones := [], birthday := some "01.01.2000" }
        "02.02.2002" =
      .error (.valueError "Birthday already exists") :=
  c5_add_birthday_set_once recAnn "01.01.2000" "02.02.2002" rfl (by decide)

/-- `edit_phone`'s loop is the identity when the old value is absent. -/
theorem editPhones_not_mem (l : List String) (o n : String) (h : o ∉ l) :
    editPhones l o n = l := by
  induction l with
  | nil => rfl
  | cons p ps ih =>
    rw [List.mem_cons, not_or] at h
    unfold editPhones
    rw [if_neg (fun hp => h.1 hp.symm), ih h.2]

/-- `edit_phone`'s loop replaces exactly the first occurrence of the
old value and stops (`break`). -/
theorem editPhones_first (l1 l2 : List String) (o n : String) (h : o ∉ l1) :
    editPhones (l1 ++ o :: l2) o n = l1 ++ n :: l2 := by
  induction l1 with
  | nil => simp [editPhones]
  | cons p ps ih =>
    rw [List.mem_cons, not_or] at h
    simp only [List.cons_append]
    unfold editPhones
    rw [if_neg (fun hp => h.1 hp.symm), ih h.2]

/-- C6 (amended): `edit_phone(old, new)` replaces the value of the
first phone equal to `old` with `new` without validating `new`, leaves
name and birthday unchanged, and is a silent no-op (no error) when no
phone equals `old`. -/
theorem c6_edit_phone_first_match (r : Record) (old new : String) :
    (Record.edit_phone r old new).name = r.name ∧
    (Record.edit_phone r old new).birthday = r.birthday ∧
    (old ∉ r.phones → Record.edit_phone r old new = r) ∧
    (∀ l1 l2, r.phones = l1 ++ old :: l2 → old ∉ l1 →
      (Record.edit_phone r old new).phones = l1 ++ new :: l2) := by
  refine ⟨rfl, rfl, ?_, ?_⟩
  · intro h
    unfold Record.edit_phone
    rw [editPhones_not_mem r.phones old new h]
  · intro l1 l2 hsplit h1
    unfold Record.edit_phone
    simp only [hsplit, editPhones_first l1 l2 old new h1]

/-- C6 witness: on phones `["111", "222", "222"]`, editing `"222"` to
the unvalidated value `"abc"` rewrites only the first occurrence, and
editing an absent value is a no-op. -/
theorem c6_witness :
    (Record.edit_phone
        { name := "Ann", phones := ["111", "222", "222"], birthday := none }
        "222" "abc").phones = ["111", "abc", "222"] ∧
    Record.edit_phone
        { name := "Ann", phones := ["111", "222", "222"], birthday := none }
        "999" "333" =
      { name := "Ann", phones := ["111", "222", "222"], birthday := none } :=
  ⟨(c6_edit_phone_first_match _ "222" "abc").2.2.2 ["111"] ["222"] rfl (by decide),
   (c6_edit_phone_first_match _ "999" "333").2.2.1 (by decide)⟩

/-- When `vkiStr` renders an error kind, the decorator's string for that
error is exactly that rendering. -/
theorem pyErrStr_of_vki (e : PyErr) (s : String) (h : vkiStr e = some s) :
    pyErrStr e = s := by
  cases e <;> simp [vkiStr, pyErrStr] at h ⊢ <;> exact h

/-- C7: the three handlers decorated with `input_error`
(`add-birthday`, `show-birthday`, `birthdays`) never propagate an
exception - every call returns a value, so the dispatch loop reaches
its next prompt - and any validation (`ValueError`), lookup
(`KeyError`) or index (`IndexError`) failure raised inside the body is
returned as the string `"<ErrorKind>: <message>"` (with the book left
unchanged by a failed `add-birthday`). -/
theorem c7_input_error_converts (args : List String) (book : AddressBook) (todayN : Nat) :
    (∃ v, addBirthdayHandler args book = .ok v) ∧
    (∃ v, showBirthdayHandler args book = .ok v) ∧
    (∃ v, birthdaysHandler args book todayN = .ok v) ∧
    (∀ e s, addBirthdayBody args book = .error e → vkiStr e = some s →
      addBirthdayHandler args book = .ok (s, book)) ∧
    (∀ e s, showBirthdayBody args book = .error e → vkiStr e = some s →
      showBirthdayHandler args book = .ok s) ∧
    (∀ e s, birthdaysBody book todayN = .error e → vkiStr e = some s →
      birthdaysHandler args book todayN = .ok [s]) := by
  refine ⟨?_, ?_, ?_, ?_, ?_, ?_⟩
  · unfold addBirthdayHandler input_error
    cases addBirthdayBody args book <;> exact ⟨_, rfl⟩
  · unfold showBirthdayHandler input_error
    cases showBirthdayBody args book <;> exact ⟨_, rfl⟩
  · unfold birthdaysHandler input_error
    cases birthdaysBody book todayN <;> exact ⟨_, rfl⟩
  · intro e s he hs
    unfold addBirthdayHandler input_error
    rw [he]
    simp [pyErrStr_of_vki e s hs]
  · intro e s he hs
    unfold showBirthdayHandler input_error
    rw [he]
    simp [pyErrStr_of_vki e s hs]
  · intro e s he hs
    unfold birthdaysHandler input_error
    rw [he]
    simp [pyErrStr_of_vki e s hs]

/-- C7 witness: adding a birthday to a contact that already has one
raises `ValueError("Birthday already exists")` inside the handler, and
the decorated handler returns
`"ValueError: Birthday already exists"` with the book unchanged. -/
theorem c7_witness :
    addBirthdayHandler ["Ann", "02.02.2002"] bkBday =
      .ok ("ValueError: Birthday already exists", bkBday) :=
  (c7_input_error_converts ["Ann", "02.02.2002"] bkBday 0).2.2.2.1
    (.valueError "Birthday already exists") "ValueError: Birthday already exists" rfl rfl

/-- A successful `Record(name, phone)` yields exactly the fresh record
for `name` (empty phones, no birthday). -/
theorem recordInit_ok (name phone : String) (r : Record)
    (h : recordInit name phone = .ok r) :
    r = { name := name, phones := [], birthday := none } := by
  unfold recordInit nameInit at h
  by_cases hn : name = ""
  · rw [if_pos hn] at h
    exact absurd h (by simp)
  · rw [if_neg hn] at h
    simpa using h.symm

/-- Dict assignment only replaces in place or appends the new key. -/
theorem keys_dictInsert (l : List (String × Record)) (k : String) (v : Record) :
    (dictInsert l k v).map Prod.fst =
      if k ∈ l.map Prod.fst then l.map Prod.fst else l.map Prod.fst ++ [k] := by
  induction l with
  | nil => simp [dictInsert]
  | cons p rest ih =>
    obtain ⟨k', v'⟩ := p
    by_cases hk : k' = k
    · subst hk
      simp [dictInsert]
    · simp only [dictInsert, if_neg hk, List.map_cons, ih, List.mem_cons]
      by_cases hm : k ∈ rest.map Prod.fst
      · simp [hm]
      · have hk2 : ¬k = k' := fun hkk => hk hkk.symm
        simp [hm, hk2]

/-- Every pair in a dict after assignment is the assigned pair or was
already present. -/
theorem mem_dictInsert (l : List (String × Record)) (k : String) (v : Record)
    (p : String × Record) : p ∈ dictInsert l k v → p = (k, v) ∨ p ∈ l := by
  induction l with
  | nil =>
    intro h
    simpa [dictInsert] using h
  | cons q rest ih =>
    obtain ⟨k', v'⟩ := q
    intro h
    by_cases hk : k' = k
    · subst hk
      simp [dictInsert] at h
      rcases h with h1 | h1
      · exact .inl h1
      · exact .inr (List.mem_cons_of_mem _ h1)
    · simp only [dictInsert, if_neg hk, List.mem_cons] at h
      rcases h with h1 | h1
      · exact .inr (List.mem_cons.mpr (.inl h1))
      · rcases ih h1 with h2 | h2
        · exact .inl h2
        · exact .inr (List.mem_cons_of_mem _ h2)

/-- Each single operation preserves the book invariant. -/
theorem bookInv_applyOp (b : AddressBook) (op : BookOp) (h : BookInv b) :
    BookInv (applyOp b op) := by
  obtain ⟨hnd, hnm⟩ := h
  cases op with
  | add n p =>
    show BookInv (match AddressBook.add_record b n p with
      | .ok b' => b'
      | .error _ => b)
    cases hadd : AddressBook.add_record b n p with
    | error e => exact ⟨hnd, hnm⟩
    | ok b' =>
      unfold AddressBook.add_record at hadd
      cases hri : recordInit n p with
      | error e => rw [hri] at hadd; exact absurd hadd (by simp)
      | ok r =>
        rw [hri] at hadd
        have hb' : b' = ⟨dictInsert b.data n r⟩ := by
          simpa using hadd.symm
        have hr := recordInit_ok n p r hri
        subst hb'
        constructor
        · show (List.map Prod.fst (dictInsert b.data n r)).Nodup
          rw [keys_dictInsert]
          by_cases hm : n ∈ b.data.map Prod.fst
          · rwa [if_pos hm]
          · rw [if_neg hm]
            simp [List.nodup_append, hnd, hm]
        · intro q hq
          rcases mem_dictInsert b.data n r q hq with h' | h'
          · rw [h', hr]
          · exact hnm q h'
  | del n =>
    constructor
    · show (List.map Prod.fst ((b.data.filter fun p => p.1 != n))).Nodup
      exact ((List.filter_sublist b.data).map Prod.fst).nodup hnd
    · intro q hq
      exact hnm q (List.mem_of_mem_filter hq)
  | find n => exact ⟨hnd, hnm⟩

/-- The invariant is preserved along any operation sequence. -/
theorem bookInv_foldl (ops : List BookOp) (b : AddressBook) (h : BookInv b) :
    BookInv (List.foldl applyOp b ops) := by
  induction ops generalizing b with
  | nil => exact h
  | cons op rest ih => exact ih (applyOp b op) (bookInv_applyOp b op h)

/-- C9: after any sequence of `add_record`/`delete`/`find` operations
from the fresh book, every key equals the `.name` of the record stored
under it and keys are pairwise distinct; moreover a successful
`add_record` on an existing name keeps the key list unchanged
(overwriting the record in place rather than creating a second entry),
and on a new name appends exactly that one key. -/
theorem c9_book_invariant :
    (∀ ops, BookInv (runOps ops)) ∧
    (∀ (b : AddressBook) (n p : String) (b' : AddressBook),
      AddressBook.add_record b n p = .ok b' →
      b'.data.map Prod.fst =
        if n ∈ b.data.map Prod.fst then b.data.map Prod.fst
        else b.data.map Prod.fst ++ [n]) := by
  constructor
  · intro ops
    exact bookInv_foldl ops ⟨[]⟩ ⟨List.nodup_nil, by simp⟩
  · intro b n p b' hadd
    unfold AddressBook.add_record at hadd
    cases hri : recordInit n p with
    | error e => rw [hri] at hadd; exact absurd hadd (by simp)
    | ok r =>
      rw [hri] at hadd
      have hb' : b' = ⟨dictInsert b.data n r⟩ := by simpa using hadd.symm
      rw [hb']
      exact keys_dictInsert b.data n r

/-- C9 witness: re-adding the existing name `"Ann"` leaves the book's
key list at exactly `["Ann"]` - the record is overwritten, no second
entry appears. -/
theorem c9_witness :
    (AddressBook.mk [("Ann", recAnn)]).data.map Prod.fst = ["Ann"] := by
  have h := c9_book_invariant.2 bkAnn "Ann" "3333333333" ⟨[("Ann", recAnn)]⟩ rfl
  rw [h]
  rfl

/-- Decoding `n` encoded phone strings restores them and leaves the
rest of the stream. -/
theorem decPhones_enc (ps : List String) (ts : List PickleTok) :
    decPhones ps.length (ps.map .str ++ ts) = some (ps, ts) := by
  induction ps with
  | nil => rfl
  | cons p rest ih => simp [decPhones, ih]

/-- Decoding an encoded entry restores it and leaves the rest of the
stream. -/
theorem decEntry_enc (k : String) (r : Record) (ts : List PickleTok) :
    decEntry (encRecord k r ++ ts) = some ((k, r), ts) := by
  obtain ⟨nm, ps, bd⟩ := r
  cases bd with
  | none =>
    have h : encRecord k { name := nm, phones := ps, birthday := none } ++ ts =
        .str k :: .str nm :: .num ps.length :: (ps.map .str ++ (.num 0 :: ts)) := by
      simp [encRecord]
    rw [h]
    simp only [decEntry, decPhones_enc ps (.num 0 :: ts)]
  | some b =>
    have h : encRecord k { name := nm, phones := ps, birthday := some b } ++ ts =
        .str k :: .str nm :: .num ps.length ::
          (ps.map .str ++ (.num 1 :: .str b :: ts)) := by
      simp [encRecord]
    rw [h]
    simp only [decEntry, decPhones_enc ps (.num 1 :: .str b :: ts)]

/-- Decoding `n` encoded entries restores them and leaves the rest of
the stream. -/
theorem decEntries_enc (es : List (String × Record)) (ts : List PickleTok) :
    decEntries es.length (encEntries es ++ ts) = some (es, ts) := by
  induction es generalizing ts with
  | nil => rfl
  | cons e rest ih =>
    obtain ⟨k, r⟩ := e
    show decEntries (rest.length + 1) (encRecord k r ++ encEntries rest ++ ts) = _
    rw [List.append_assoc]
    simp only [decEntries, decEntry_enc k r (encEntries rest ++ ts), ih ts]

/-- C8: persisting any address book through the (spec-modelled)
persistence adapter and loading it back restores a book with exactly
the same entries - the same names in the same order, and for each name
the same phone list and the same optional birthday. -/
theorem c8_persistence_roundtrip (b : AddressBook) :
    load_data (some (save_data b)) = some b := by
  obtain ⟨data⟩ := b
  show pickleLoad (.num data.length :: encEntries data) = some ⟨data⟩
  have h := decEntries_enc data []
  rw [List.append_nil] at h
  simp only [pickleLoad, h]

/-- When every stored birthday in the list parses,
`get_upcoming_birthdays`'s loop completes without raising. -/
theorem upcomingAux_ok (todayN : Nat) (l : List (String × Record))
    (h : ∀ p ∈ l, ∀ s, p.2.birthday = some s → (parseDMY s).isSome) :
    ∃ es, upcomingAux todayN l = .ok es := by
  induction l with
  | nil => exact ⟨[], rfl⟩
  | cons q rest ih =>
    obtain ⟨k, r⟩ := q
    obtain ⟨es, hes⟩ := ih (fun p hp s hs => h p (List.mem_cons_of_mem _ hp) s hs)
    cases hb : r.birthday with
    | none => exact ⟨es, by simp [upcomingAux, hb, hes]⟩
    | some s =>
      have hps := h (k, r) (List.mem_cons_self _ _) s hb
      cases hp : parseDMY s with
      | none => rw [hp] at hps; simp at hps
      | some v =>
        obtain ⟨d, m, y⟩ := v
        by_cases hw : todayN ≤ daysFromCivil y m d ∧ daysFromCivil y m d ≤ todayN + 7
        · exact ⟨{ name := r.name, birthday := s } :: es,
            by simp [upcomingAux, hb, hp, hes, hw]⟩
        · exact ⟨es, by simp [upcomingAux, hb, hp, hes, hw]⟩

/-- Every entry of the loop's output comes from a record of the list
whose stored date (with its stored year) lies in the window. -/
theorem mem_upcomingAux (todayN : Nat) (l : List (String × Record))
    (es : List UpcomingEntry) (e : UpcomingEntry) :
    upcomingAux todayN l = .ok es → e ∈ es →
    ∃ k r s d m y, (k, r) ∈ l ∧ r.birthday = some s ∧
      parseDMY s = some (d, m, y) ∧
      todayN ≤ daysFromCivil y m d ∧ daysFromCivil y m d ≤ todayN + 7 ∧
      e = ⟨r.name, s⟩ := by
  induction l generalizing es with
  | nil =>
    intro hok he
    simp only [upcomingAux, Except.ok.injEq] at hok
    subst hok
    simp at he
  | cons q rest ih =>
    obtain ⟨k, r⟩ := q
    intro hok he
    cases hb : r.birthday with
    | none =>
      simp only [upcomingAux, hb] at hok
      obtain ⟨k', r', s', d, m, y, hm2, hb2, hp2, h1, h2, he2⟩ := ih es hok he
      exact ⟨k', r', s', d, m, y, List.mem_cons_of_mem _ hm2, hb2, hp2, h1, h2, he2⟩
    | some s =>
      simp only [upcomingAux, hb] at hok
      cases hp : parseDMY s with
      | none =>
        simp only [hp] at hok
        exact Except.noConfusion hok
      | some v =>
        obtain ⟨d, m, y⟩ := v
        simp only [hp] at hok
        cases hrec : upcomingAux todayN rest with
        | error e2 =>
          simp only [hrec] at hok
          exact Except.noConfusion hok
        | ok tail =>
          simp only [hrec] at hok
          by_cases hw : todayN ≤ daysFromCivil y m d ∧ daysFromCivil y m d ≤ todayN + 7
          · rw [if_pos hw] at hok
            injection hok with hok
            subst hok
            rcases List.mem_cons.mp he with he1 | he1
            · exact ⟨k, r, s, d, m, y, List.mem_cons_self _ _, hb, hp, hw.1, hw.2, he1⟩
            · obtain ⟨k', r', s', d', m', y', hm2, hb2, hp2, h1, h2, he2⟩ :=
                ih tail hrec he1
              exact ⟨k', r', s', d', m', y', List.mem_cons_of_mem _ hm2, hb2, hp2,
                h1, h2, he2⟩
          · rw [if_neg hw] at hok
            injection hok with hok
            subst hok
            obtain ⟨k', r', s', d', m', y', hm2, hb2, hp2, h1, h2, he2⟩ :=
              ih tail hrec he
            exact ⟨k', r', s', d', m', y', List.mem_cons_of_mem _ hm2, hb2, hp2,
              h1, h2, he2⟩

/-- Conversely, every record of the list whose stored date lies in the
window contributes its entry to the loop's output. -/
theorem upcomingAux_mem_of (todayN : Nat) (l : List (String × Record))
    (es : List UpcomingEntry) (k : String) (r : Record) (s : String) (d m y : Nat) :
    upcomingAux todayN l = .ok es → (k, r) ∈ l → r.birthday = some s →
    parseDMY s = some (d, m, y) → todayN ≤ daysFromCivil y m d →
    daysFromCivil y m d ≤ todayN + 7 → UpcomingEntry.mk r.name s ∈ es := by
  induction l generalizing es with
  | nil =>
    intro _ hm
    simp at hm
  | cons q rest ih =>
    obtain ⟨k0, r0⟩ := q
    intro hok hm hb hp h1 h2
    rcases List.mem_cons.mp hm with hm1 | hm1
    · rw [Prod.mk.injEq] at hm1
      obtain ⟨hk1, hr1⟩ := hm1
      subst hk1
      subst hr1
      simp only [upcomingAux, hb, hp] at hok
      cases hrec : upcomingAux todayN rest with
      | error e2 =>
        simp only [hrec] at hok
        exact Except.noConfusion hok
      | ok tail =>
        simp only [hrec] at hok
        rw [if_pos ⟨h1, h2⟩] at hok
        injection hok with hok
        subst hok
        exact List.mem_cons_self _ _
    · cases hb0 : r0.birthday with
      | none =>
        simp only [upcomingAux, hb0] at hok
        exact ih es hok hm1 hb hp h1 h2
      | some s0 =>
        simp only [upcomingAux, hb0] at hok
        cases hp0 : parseDMY s0 with
        | none =>
          simp only [hp0] at hok
          exact Except.noConfusion hok
        | some v0 =>
          obtain ⟨d0, m0, y0⟩ := v0
          simp only [hp0] at hok
          cases hrec : upcomingAux todayN rest with
          | error e2 =>
            simp only [hrec] at hok
            exact Except.noConfusion hok
          | ok tail =>
            simp only [hrec] at hok
            have htail := ih tail hrec hm1 hb hp h1 h2
            by_cases hw : todayN ≤ daysFromCivil y0 m0 d0 ∧
                daysFromCivil y0 m0 d0 ≤ todayN + 7
            · rw [if_pos hw] at hok
              injection hok with hok
              subst hok
              exact List.mem_cons_of_mem _ htail
            · rw [if_neg hw] at hok
              injection hok with hok
              subst hok
              exact htail

/-- With pairwise-distinct keys, a key determines its record. -/
theorem keyval_unique (l : List (String × Record))
    (hnd : (l.map Prod.fst).Nodup) (k : String) (r r' : Record)
    (h : (k, r) ∈ l) (h' : (k, r') ∈ l) : r = r' := by
  induction l with
  | nil => simp at h
  | cons q rest ih =>
    obtain ⟨k0, r0⟩ := q
    simp only [List.map_cons, List.nodup_cons] at hnd
    rcases List.mem_cons.mp h with h1 | h1 <;> rcases List.mem_cons.mp h' with h2 | h2
    · rw [Prod.mk.injEq] at h1 h2
      rw [h1.2, h2.2]
    · exfalso
      rw [Prod.mk.injEq] at h1
      apply hnd.1
      rw [← h1.1]
      exact List.mem_map_of_mem Prod.fst h2
    · exfalso
      rw [Prod.mk.injEq] at h2
      apply hnd.1
      rw [← h2.1]
      exact List.mem_map_of_mem Prod.fst h1
    · exact ih hnd.2 h1 h2

/-- C4 (amended): for a book satisfying the key invariant whose stored
birthdays all parse, `get_upcoming_birthdays` succeeds, and a record
with a birthday contributes its entry exactly when the stored calendar
date itself - including its stored year, with no substitution of the
current year - falls within the inclusive window `[today, today + 7
days]`. -/
theorem c4_upcoming_uses_stored_year (book : AddressBook) (todayN : Nat)
    (hinv : BookInv book)
    (hparse : ∀ p ∈ book.data, ∀ s, p.2.birthday = some s → (parseDMY s).isSome) :
    ∃ es, AddressBook.get_upcoming_birthdays book todayN = .ok es ∧
      ∀ k r s d m y, (k, r) ∈ book.data → r.birthday = some s →
        parseDMY s = some (d, m, y) →
        (UpcomingEntry.mk r.name s ∈ es ↔
          todayN ≤ daysFromCivil y m d ∧ daysFromCivil y m d ≤ todayN + 7) := by
  obtain ⟨es, hes⟩ := upcomingAux_ok todayN book.data hparse
  refine ⟨es, hes, ?_⟩
  intro k r s d m y hm hb hp
  constructor
  · intro hmem
    obtain ⟨k', r', s', d', m', y', hm', hb', hp', h1', h2', he'⟩ :=
      mem_upcomingAux todayN book.data es _ hes hmem
    have hname : r.name = r'.name := congrArg UpcomingEntry.name he'
    have hs' : s = s' := congrArg UpcomingEntry.birthday he'
    have hk : r.name = k := hinv.2 (k, r) hm
    have hk' : r'.name = k' := hinv.2 (k', r') hm'
    have hkk : k' = k := by rw [← hk, ← hk', hname]
    subst hkk
    have hrr : r = r' := keyval_unique book.data hinv.1 k' r r' hm hm'
    subst hs'
    rw [hp] at hp'
    have htup : d = d' ∧ m = m' ∧ y = y' := by
      injection hp' with hp''
      simpa [Prod.ext_iff] using hp''
    obtain ⟨hd, hmm, hy⟩ := htup
    subst hd
    subst hmm
    subst hy
    exact ⟨h1', h2'⟩
  · intro hw
    exact upcomingAux_mem_of todayN book.data es k r s d m y hes hm hb hp hw.1 hw.2

/-- C4 witness: with today = 2026-10-12, a contact whose stored
birthday is `15.10.2026` (three days ahead, stored year equal to the
current year) is reported by `get_upcoming_birthdays`. -/
theorem c4_witness :
    AddressBook.get_upcoming_birthdays bkNew4 (daysFromCivil 2026 10 12) =
      Except.ok [UpcomingEntry.mk "Ann" "15.10.2026"] := by
  obtain ⟨es, hok, hiff⟩ := c4_upcoming_uses_stored_year bkNew4 (daysFromCivil 2026 10 12)
    ⟨by decide, by decide⟩
    (by
      intro p hp s hs
      rw [show bkNew4.data =
          [("Ann", { name := "Ann", phones := [], birthday := some "15.10.2026" })] from
          rfl,
        List.mem_singleton] at hp
      subst hp
      injection hs with hs
      subst hs
      decide)
  have hmem : UpcomingEntry.mk "Ann" "15.10.2026" ∈ es :=
    (hiff "Ann" { name := "Ann", phones := [], birthday := some "15.10.2026" }
        "15.10.2026" 15 10 2026 (List.mem_singleton.mpr rfl) rfl (by decide)).2
      ⟨by decide, by decide⟩
  have hes : es = [UpcomingEntry.mk "Ann" "15.10.2026"] :=
    Except.ok.inj (hok.symm.trans rfl)
  rw [← hes]
  exact hok
